import Mathlib

/-!
Verification of the value/element codec of the `soap` Go package
(`element.go`, second revision, the one the claims point into).

The Go code is shallowly embedded: every Go function that can panic or
return an error is modelled as a function into `GoRes`, a three-way
result (ok / error-with-message / panicked).  Go panic payloads are not
modelled (`panicked` carries no message); nothing in the development
depends on panic texts.  Machine integers are modelled as `ℤ`/`ℕ` with
the explicit range checks that `strconv` performs; `float32`/`float64`
values are modelled as exact rationals (the IEEE binary rounding Go
performs is abstracted away; no theorem below depends on a float value).
Go `nil` slices and empty slices are identified (both are `[]`), which
matches every element the package itself constructs.
-/

namespace Soap

/-- Result of a Go call: a value, a Go `error` with its message, or a
runtime panic (payload not modelled). -/
inductive GoRes (α : Type) where
  | ok (a : α)
  | err (msg : String)
  | panicked
deriving Repr, DecidableEq

/-- True exactly for the `err` constructor. -/
def GoRes.isErr {α : Type} : GoRes α → Bool
  | .err _ => true
  | _ => false

/-- A single apostrophe (U+0027) as a string; Go error messages quote
values with it. -/
def sq : String := String.mk [Char.ofNat 39]

/-- `Element` from `element.go`: tag name (`XMLName.Local`), the
`xsi:type` attribute, the `xsi:nil` attribute, character data, and the
ordered child elements. -/
inductive Element where
  | mk (Name : String) (Typ : String) (Nil : Bool) (Text : String)
       (Children : List Element)

/-- The element's tag name (`XMLName.Local`). -/
def Element.Name : Element → String
  | .mk n _ _ _ _ => n

/-- The element's wire type attribute (`Type`). -/
def Element.Typ : Element → String
  | .mk _ t _ _ _ => t

/-- The element's `nil` attribute. -/
def Element.Nil : Element → Bool
  | .mk _ _ b _ _ => b

/-- The element's character data (`Text`). -/
def Element.Text : Element → String
  | .mk _ _ _ s _ => s

/-- The element's child list (`Children`). -/
def Element.Children : Element → List Element
  | .mk _ _ _ _ c => c

/-- Scan for the first colon; return what follows it, or the whole
original string when there is none. -/
def skipNSAux : List Char → String → String
  | [], s => s
  | ':' :: t, _ => String.mk t
  | _ :: t, s => skipNSAux t s

/-- `skipNS` from `element.go`: drop everything up to and including the
first colon (`strings.IndexRune(s, ':')`). -/
def skipNS (s : String) : String := skipNSAux s.data s

/-- `(*Element).badValue` from `element.go`.  A childed element renders
its value as `{...}`; an empty `typ` argument reports the element's own
SOAP type, a non-empty one the intended Go type. -/
def badValue (e : Element) (typ : String) : String :=
  let val := if e.Children.isEmpty then e.Text else "\x7b...\x7d"
  let t := if typ = "" then "SOAP:" ++ skipNS e.Typ else "Go:" ++ typ
  "soap: bad value " ++ sq ++ val ++ sq ++ " for type " ++ t

/-- `(*Element).typeError` from `element.go`: the strict getters' type
mismatch message, naming actual and expected wire type. -/
def typeError (e : Element) (exp : String) : String :=
  "soap: element of type " ++ sq ++ skipNS e.Typ ++ sq ++ " but " ++
    sq ++ exp ++ sq ++ " expected"

/-- Decimal digit accumulator for the `strconv` parsers. -/
def decDigitsAux : ℕ → List Char → Option ℕ
  | acc, [] => some acc
  | acc, c :: cs =>
      if c.isDigit then decDigitsAux (acc * 10 + (c.toNat - 48)) cs
      else none

/-- Parse a non-empty all-digit string into a natural number. -/
def decDigits (cs : List Char) : Option ℕ :=
  if cs.isEmpty then none else decDigitsAux 0 cs

/-- `strconv.ParseUint(s, 10, bits)`: digits only (no sign), range
checked against `2^bits - 1`.  Go returns a clamped value together with
`ErrRange`; every caller in `element.go` discards the value on error, so
the model collapses the error cases to `none`. -/
def ParseUint (s : String) (bits : ℕ) : Option ℕ :=
  match decDigits s.data with
  | none => none
  | some n => if n ≤ 2 ^ bits - 1 then some n else none

/-- `strconv.ParseInt(s, 10, bits)`: optional sign, digits, range
checked against `[-2^(bits-1), 2^(bits-1)-1]`. -/
def ParseInt (s : String) (bits : ℕ) : Option ℤ :=
  match s.data with
  | [] => none
  | '+' :: rest =>
      match decDigits rest with
      | none => none
      | some n => if n ≤ 2 ^ (bits - 1) - 1 then some (n : ℤ) else none
  | '-' :: rest =>
      match decDigits rest with
      | none => none
      | some n => if n ≤ 2 ^ (bits - 1) then some (-(n : ℤ)) else none
  | cs =>
      match decDigits cs with
      | none => none
      | some n => if n ≤ 2 ^ (bits - 1) - 1 then some (n : ℤ) else none

/-- `strconv.ParseBool`: the exact textual vocabulary Go accepts. -/
def parseBool (s : String) : Option Bool :=
  match s with
  | "1" | "t" | "T" | "TRUE" | "true" | "True" => some true
  | "0" | "f" | "F" | "FALSE" | "false" | "False" => some false
  | _ => none

/-- `strconv.FormatUint(n, 10)`. -/
def FormatUint (n : ℕ) : String := toString n

/-- `strconv.FormatInt(i, 10)`. -/
def FormatInt (i : ℤ) : String := toString i

/-- Exponent part of Go float syntax: optional sign then digits, which
must consume the whole rest of the input. -/
def parseExp (base : ℚ) (t : List Char) : Option ℚ :=
  let q : Bool × List Char :=
    match t with
    | '+' :: r => (false, r)
    | '-' :: r => (true, r)
    | r => (false, r)
  let ds := q.2.span Char.isDigit
  if ds.1.isEmpty || !ds.2.isEmpty then none
  else
    let e := (decDigitsAux 0 ds.1).getD 0
    some (if q.1 then base / 10 ^ e else base * 10 ^ e)

/-- `strconv.ParseFloat(s, bits)`, modelled over exact rationals:
optional sign, decimal mantissa with optional fraction, optional
exponent.  The IEEE rounding to `bits` precision, hexadecimal floats,
`Inf`/`NaN` spellings and the overflow/underflow `ErrRange` cases are
abstracted away (no claim exercises them). -/
def parseFloatQ (s : String) : Option ℚ :=
  let p : Bool × List Char :=
    match s.data with
    | '+' :: r => (false, r)
    | '-' :: r => (true, r)
    | r => (false, r)
  let ipr := p.2.span Char.isDigit
  let fr : List Char × List Char :=
    match ipr.2 with
    | '.' :: t => t.span Char.isDigit
    | _ => ([], ipr.2)
  if ipr.1.isEmpty && fr.1.isEmpty then none
  else
    let mant : ℤ := ((decDigitsAux 0 (ipr.1 ++ fr.1)).getD 0 : ℕ)
    let mant : ℤ := if p.1 then -mant else mant
    let base : ℚ := (mant : ℚ) / (10 : ℚ) ^ fr.1.length
    match fr.2 with
    | [] => some base
    | 'e' :: t => parseExp base t
    | 'E' :: t => parseExp base t
    | _ => none

/-- `10^z` over the rationals for an integer exponent. -/
def qpow10 (z : ℤ) : ℚ :=
  if 0 ≤ z then (10 : ℚ) ^ z.toNat else 1 / (10 : ℚ) ^ (-z).toNat

/-- `⌊log10 a⌋` for a positive rational. -/
def ratExp10 (a : ℚ) : ℤ :=
  let cand : ℤ := (Nat.log 10 a.num.natAbs : ℤ) - (Nat.log 10 a.den : ℤ)
  if a < qpow10 cand then cand - 1 else cand

/-- Round a nonnegative rational to the nearest natural (half up; the
tie direction is invisible to every claim). -/
def ratRoundNat (x : ℚ) : ℕ := (⌊x + 1 / 2⌋).toNat

/-- Decimal rendering of a natural, left-padded with zeros to `len`. -/
def digitsPad (n len : ℕ) : String :=
  let s := toString n
  String.mk (List.replicate (len - s.length) '0') ++ s

/-- `strconv.FormatFloat(v, 'e', prec, bits)` over the rational model:
scientific notation with `prec` digits after the point and an at least
two-digit exponent. -/
def FormatFloat (q : ℚ) (prec : ℕ) : String :=
  if q = 0 then "0." ++ String.mk (List.replicate prec '0') ++ "e+00"
  else
    let sign := if q < 0 then "-" else ""
    let a := |q|
    let e0 := ratExp10 a
    let m0 := ratRoundNat (a * qpow10 ((prec : ℤ) - e0))
    let me : ℕ × ℤ :=
      if 10 ^ (prec + 1) ≤ m0 then (m0 / 10, e0 + 1) else (m0, e0)
    let ds := digitsPad me.1 (prec + 1)
    let esign := if me.2 < 0 then "-" else "+"
    sign ++ String.mk (ds.data.take 1) ++ "." ++ String.mk (ds.data.drop 1)
      ++ "e" ++ esign ++ digitsPad me.2.natAbs 2

/-- `time.Time`, modelled as broken-down civil time plus a UTC offset in
seconds (the wall/monotonic representation and named zones are
abstracted away). -/
structure GoTime where
  year : ℤ
  month : ℕ
  day : ℕ
  hour : ℕ
  minute : ℕ
  sec : ℕ
  nsec : ℕ
  offset : ℤ
deriving Repr, DecidableEq

/-- The zero `time.Time{}`: January 1, year 1, 00:00:00 UTC. -/
def zeroTime : GoTime := ⟨1, 1, 1, 0, 0, 0, 0, 0⟩

/-- Leap year predicate (proleptic Gregorian, as Go uses). -/
def isLeap (y : ℤ) : Bool := y % 4 = 0 && (y % 100 ≠ 0 || y % 400 = 0)

/-- Number of days in a month, for `time.Parse` range validation. -/
def daysIn (y : ℤ) (m : ℕ) : ℕ :=
  match m with
  | 1 => 31 | 3 => 31 | 5 => 31 | 7 => 31 | 8 => 31 | 10 => 31 | 12 => 31
  | 4 => 30 | 6 => 30 | 9 => 30 | 11 => 30
  | 2 => if isLeap y then 29 else 28
  | _ => 0

/-- Two decimal digit characters to a number. -/
def dd2 (a b : Char) : Option ℕ :=
  if a.isDigit && b.isDigit then some ((a.toNat - 48) * 10 + (b.toNat - 48))
  else none

/-- Four decimal digit characters to a number. -/
def dd4 (a b c d : Char) : Option ℕ :=
  match dd2 a b, dd2 c d with
  | some hi, some lo => some (hi * 100 + lo)
  | _, _ => none

/-- The range checks `time.Parse` applies to a broken-down date. -/
def validDate (y : ℤ) (mo d h mi s : ℕ) : Bool :=
  1 ≤ mo && mo ≤ 12 && 1 ≤ d && d ≤ daysIn y mo && h ≤ 23 && mi ≤ 59
    && s ≤ 59

/-- `time.Parse` with the package's SOAP layout
`2006-01-02T15:04:05.000000000-07:00` (fixed-width fields, nine
fractional digits, numeric colon zone; negative years unmodelled). -/
def parseTimeSOAP (s : String) : Option GoTime :=
  match s.data with
  | y1 :: y2 :: y3 :: y4 :: p1 :: mo1 :: mo2 :: p2 :: d1 :: d2 :: pt ::
      h1 :: h2 :: pc1 :: mi1 :: mi2 :: pc2 :: s1 :: s2 :: pd :: n1 ::
      n2 :: n3 :: n4 :: n5 :: n6 :: n7 :: n8 :: n9 :: zs :: z1 :: z2 ::
      zc :: z3 :: z4 :: [] =>
      if p1 = '-' && p2 = '-' && pt = 'T' && pc1 = ':' && pc2 = ':'
          && pd = '.' && zc = ':' && (zs = '+' || zs = '-') then
        match dd4 y1 y2 y3 y4, dd2 mo1 mo2, dd2 d1 d2, dd2 h1 h2,
            dd2 mi1 mi2, dd2 s1 s2, dd2 z1 z2, dd2 z3 z4,
            decDigits [n1, n2, n3, n4, n5, n6, n7, n8, n9] with
        | some y, some mo, some d, some h, some mi, some sc, some zh,
            some zm, some ns =>
            if validDate (y : ℤ) mo d h mi sc && zm ≤ 59 then
              let off : ℤ := (zh * 3600 + zm * 60 : ℕ)
              some ⟨(y : ℤ), mo, d, h, mi, sc, ns,
                if zs = '-' then -off else off⟩
            else none
        | _, _, _, _, _, _, _, _, _ => none
      else none
  | _ => none

/-- `time.ParseInLocation` with layout `2006-01-02 15:04:05`; `loc` is
the location's UTC offset in seconds. -/
def parseTimeSQL (s : String) (loc : ℤ) : Option GoTime :=
  match s.data with
  | [y1, y2, y3, y4, p1, mo1, mo2, p2, d1, d2, sp, h1, h2, pc1, mi1, mi2,
     pc2, s1, s2] =>
      if p1 = '-' && p2 = '-' && sp = ' ' && pc1 = ':' && pc2 = ':' then
        match dd4 y1 y2 y3 y4, dd2 mo1 mo2, dd2 d1 d2, dd2 h1 h2,
            dd2 mi1 mi2, dd2 s1 s2 with
        | some y, some mo, some d, some h, some mi, some sc =>
            if validDate (y : ℤ) mo d h mi sc then
              some ⟨(y : ℤ), mo, d, h, mi, sc, 0, loc⟩
            else none
        | _, _, _, _, _, _ => none
      else none
  | _ => none

/-- `time.ParseInLocation` with layout `2006-01-02 15:04`. -/
def parseTimeSQL16 (s : String) (loc : ℤ) : Option GoTime :=
  match s.data with
  | [y1, y2, y3, y4, p1, mo1, mo2, p2, d1, d2, sp, h1, h2, pc1, mi1,
     mi2] =>
      if p1 = '-' && p2 = '-' && sp = ' ' && pc1 = ':' then
        match dd4 y1 y2 y3 y4, dd2 mo1 mo2, dd2 d1 d2, dd2 h1 h2,
            dd2 mi1 mi2 with
        | some y, some mo, some d, some h, some mi =>
            if validDate (y : ℤ) mo d h mi 0 then
              some ⟨(y : ℤ), mo, d, h, mi, 0, 0, loc⟩
            else none
        | _, _, _, _, _ => none
      else none
  | _ => none

/-- `time.ParseInLocation` with layout `2006-01-02`. -/
def parseTimeSQL10 (s : String) (loc : ℤ) : Option GoTime :=
  match s.data with
  | [y1, y2, y3, y4, p1, mo1, mo2, p2, d1, d2] =>
      if p1 = '-' && p2 = '-' then
        match dd4 y1 y2 y3 y4, dd2 mo1 mo2, dd2 d1 d2 with
        | some y, some mo, some d =>
            if validDate (y : ℤ) mo d 0 0 0 then
              some ⟨(y : ℤ), mo, d, 0, 0, 0, 0, loc⟩
            else none
        | _, _, _ => none
      else none
  | _ => none

/-- `t.Format` with the SOAP layout: zero-padded fields, nine
fractional digits, signed `hh:mm` zone offset. -/
def formatTimeSOAP (t : GoTime) : String :=
  let a := t.offset.natAbs
  digitsPad t.year.toNat 4 ++ "-" ++ digitsPad t.month 2 ++ "-"
    ++ digitsPad t.day 2 ++ "T" ++ digitsPad t.hour 2 ++ ":"
    ++ digitsPad t.minute 2 ++ ":" ++ digitsPad t.sec 2 ++ "."
    ++ digitsPad t.nsec 9 ++ (if t.offset < 0 then "-" else "+")
    ++ digitsPad (a / 3600) 2 ++ ":" ++ digitsPad (a % 3600 / 60) 2

/-- Is `pat` a contiguous substring of `l` (`strings.Contains`)? -/
def hasSub (l pat : List Char) : Bool :=
  if pat.isPrefixOf l then true
  else
    match l with
    | [] => false
    | _ :: t => hasSub t pat

/-- `strings.Contains(s, sub)`. -/
def strContains (s sub : String) : Bool := hasSub s.data sub.data

/-- Split a struct tag at its first comma, as both `MakeElement` and
`LoadStruct` do with `strings.IndexRune(name, ',')`: the second
component, when present, is the option suffix including the comma. -/
def cutComma (s : String) : String × Option String :=
  match s.data.span (fun c => c ≠ ',') with
  | (before, []) => (String.mk before, none)
  | (before, rest) => (String.mk before, some (String.mk rest))

/-- The dynamically typed decode result of `Value()` (`interface{}`):
nil, string, bool, int64, uint64, float64, `time.Time`,
`map[string]interface{}` (modelled as an assoc list, last write wins),
`[]interface{}`, or `map[interface{}]interface{}`. -/
inductive DynVal where
  | null
  | str (s : String)
  | bool (b : Bool)
  | int (v : ℤ)
  | uint (v : ℕ)
  | float (q : ℚ)
  | time (t : GoTime)
  | smap (m : List (String × DynVal))
  | arr (l : List DynVal)
  | imap (m : List (DynVal × DynVal))

/-- Go `==` on two comparable dynamic values: equal dynamic type and
equal value (differing dynamic types compare unequal without panic). -/
def dynScalarBEq : DynVal → DynVal → Bool
  | .null, .null => true
  | .str a, .str b => a = b
  | .bool a, .bool b => a = b
  | .int a, .int b => a = b
  | .uint a, .uint b => a = b
  | .float a, .float b => a = b
  | .time a, .time b => a = b
  | _, _ => false

/-- Go `==`/`!=` on two `interface{}` values: identical uncomparable
dynamic types (map, slice) make the comparison panic at runtime,
otherwise it yields a boolean. -/
def dynEqRes (a b : DynVal) : GoRes Bool :=
  match a, b with
  | .smap _, .smap _ => .panicked
  | .arr _, .arr _ => .panicked
  | .imap _, .imap _ => .panicked
  | _, _ => .ok (dynScalarBEq a b)

/-- Go map insert with string keys, modelled on an assoc list: replace
the existing entry (last write wins) or append. -/
def upsert : List (String × DynVal) → String → DynVal → List (String × DynVal)
  | [], k, v => [(k, v)]
  | (k1, v1) :: t, k, v =>
      if k1 = k then (k, v) :: t else (k1, v1) :: upsert t k v

/-- Insert into a `map[interface{}]interface{}` assoc list, assuming the
key is comparable. -/
def imapUpsertOk : List (DynVal × DynVal) → DynVal → DynVal → List (DynVal × DynVal)
  | [], k, v => [(k, v)]
  | (k1, v1) :: t, k, v =>
      if dynScalarBEq k1 k then (k, v) :: t else (k1, v1) :: imapUpsertOk t k v

/-- Go map insert with an `interface{}` key: inserting an uncomparable
key (map, slice) panics at runtime. -/
def imapUpsert (m : List (DynVal × DynVal)) (k v : DynVal) :
    GoRes (List (DynVal × DynVal)) :=
  match k with
  | .smap _ => .panicked
  | .arr _ => .panicked
  | .imap _ => .panicked
  | _ => .ok (imapUpsertOk m k v)

/-- `(*Element).MapItem` from `element.go`, faithfully including its two
defects: a wrong child count only assigns `err` without returning (the
assignment therefore only reaches the caller when both `key` and
`value` are found), and with fewer than two children the subsequent
`e.Children[0]`/`e.Children[1]` accesses panic with an index out of
range. -/
def MapItem (e : Element) : GoRes (Element × Element) :=
  if e.Name ≠ "item" then
    .err ("soap: element" ++ sq ++ e.Name ++ sq ++ " isn" ++ sq
      ++ "t a map item")
  else
    match e.Children with
    | c0 :: c1 :: rest =>
        match (if c0.Name = "key" then some c0
               else if c1.Name = "key" then some c1 else none) with
        | none => .err "soap: map item without a key"
        | some k =>
            match (if c1.Name = "value" then some c1
                   else if c0.Name = "value" then some c0 else none) with
            | none => .err "soap: map item without a value"
            | some v =>
                if rest.isEmpty then .ok (k, v)
                else .err "soap: bad number of children in map item"
    | _ => .panicked

/-- An element is strictly larger than its child list. -/
theorem sizeOf_children_lt (e : Element) : sizeOf e.Children < sizeOf e := by
  rcases e with ⟨n, t, b, s, c⟩
  simp only [Element.Children, Element.mk.sizeOf_spec]
  omega

/-- The pair returned by a successful `MapItem` consists of strictly
smaller elements (children of the argument); this powers the
termination of `Value` on map-shaped elements. -/
theorem MapItem_ok_sizeOf {e : Element} {kv : Element × Element}
    (h : MapItem e = .ok kv) : sizeOf kv.1 < sizeOf e ∧ sizeOf kv.2 < sizeOf e := by
  obtain ⟨kv1, kv2⟩ := kv
  show sizeOf kv1 < sizeOf e ∧ sizeOf kv2 < sizeOf e
  have hch := sizeOf_children_lt e
  rw [MapItem] at h
  split at h
  · simp at h
  · split at h
    · rename_i c0 c1 rest heq
      split at h
      · simp at h
      · rename_i k hkeq
        split at h
        · simp at h
        · rename_i v hveq
          split at h
          · rw [heq] at hch
            simp only [List.cons.sizeOf_spec] at hch
            have hk : k = c0 ∨ k = c1 := by
              split at hkeq
              · exact Or.inl (Option.some.inj hkeq).symm
              · split at hkeq
                · exact Or.inr (Option.some.inj hkeq).symm
                · simp at hkeq
            have hv : v = c0 ∨ v = c1 := by
              split at hveq
              · exact Or.inr (Option.some.inj hveq).symm
              · split at hveq
                · exact Or.inl (Option.some.inj hveq).symm
                · simp at hveq
            simp only [GoRes.ok.injEq, Prod.mk.injEq] at h
            obtain ⟨rfl, rfl⟩ := h
            rcases hk with rfl | rfl <;> rcases hv with rfl | rfl <;>
              exact ⟨by omega, by omega⟩
          · simp at h
    · simp at h

mutual

/-- `(*Element).Value` from `element.go`: generic decode of an element
into a dynamically typed value.  A nil element decodes to the null
value before anything else is looked at; otherwise the wire type tag
(namespace-stripped) selects the parse. -/
def Value : Element → GoRes DynVal
  | e =>
    if e.Nil then .ok .null
    else
      match skipNS e.Typ with
      | "string" => .ok (.str e.Text)
      | "boolean" =>
          match e.Text with
          | "true" => .ok (.bool true)
          | "false" => .ok (.bool false)
          | _ => .err (badValue e "")
      | "long" | "int" | "short" | "byte" =>
          match ParseInt e.Text 64 with
          | some v => .ok (.int v)
          | none => .err (badValue e "")
      | "unsignedLong" | "unsignedInt" | "unsignedShort" | "unsignedByte" =>
          match ParseUint e.Text 64 with
          | some v => .ok (.uint v)
          | none => .err (badValue e "")
      | "float" | "double" =>
          match parseFloatQ e.Text with
          | some v => .ok (.float v)
          | none => .err (badValue e "")
      | "dateTime" =>
          match parseTimeSOAP e.Text with
          | some t => .ok (.time t)
          | none => .err (badValue e "")
      | "Struct" => valueStruct e.Children []
      | "Array" =>
          match valueArray e.Children with
          | .ok l => .ok (.arr l)
          | .err m => .err m
          | .panicked => .panicked
      | "Map" => valueMap e.Children []
      | _ => .err ("soap: unknown type: " ++ e.Typ)
termination_by e => sizeOf e
decreasing_by
  all_goals exact lt_of_lt_of_le (sizeOf_children_lt e) (le_refl _)

/-- The `Struct` loop of `Value`: decode each child and enter it into a
`map[string]interface{}` under the child's name (duplicates: last
write wins). -/
def valueStruct : List Element → List (String × DynVal) → GoRes DynVal
  | [], m => .ok (.smap m)
  | c :: cs, m =>
      match Value c with
      | .ok v => valueStruct cs (upsert m c.Name v)
      | .err msg => .err msg
      | .panicked => .panicked
termination_by cs _ => sizeOf cs

/-- The `Array` loop of `Value`: children must all be named `item` and
are decoded in order. -/
def valueArray : List Element → GoRes (List DynVal)
  | [] => .ok []
  | c :: cs =>
      if c.Name ≠ "item" then
        .err ("soap: bad element " ++ sq ++ c.Name ++ sq ++ "in array")
      else
        match Value c with
        | .ok v =>
            match valueArray cs with
            | .ok l => .ok (v :: l)
            | .err m => .err m
            | .panicked => .panicked
        | .err m => .err m
        | .panicked => .panicked
termination_by cs => sizeOf cs

/-- The `Map` loop of `Value`: split each child into key and value with
`MapItem`, decode both, and enter the pair into a
`map[interface{}]interface{}`. -/
def valueMap : List Element → List (DynVal × DynVal) → GoRes DynVal
  | [], m => .ok (.imap m)
  | c :: cs, m =>
      match hmi : MapItem c with
      | .panicked => .panicked
      | .err msg => .err msg
      | .ok kv =>
          match Value kv.1 with
          | .err msg => .err msg
          | .panicked => .panicked
          | .ok k =>
              match Value kv.2 with
              | .err msg => .err msg
              | .panicked => .panicked
              | .ok v =>
                  match imapUpsert m k v with
                  | .panicked => .panicked
                  | .err msg => .err msg
                  | .ok m2 => valueMap cs m2
termination_by cs _ => sizeOf cs
decreasing_by
  · have := (MapItem_ok_sizeOf hmi).1
    simp only [List.cons.sizeOf_spec]
    omega
  · have := (MapItem_ok_sizeOf hmi).2
    simp only [List.cons.sizeOf_spec]
    omega
  · simp only [List.cons.sizeOf_spec]
    omega

end

mutual

/-- `fmt` default (`%v`) rendering of a decoded dynamic value, as used
by `AsStr` on childed elements.  Scalars render canonically; for maps
the key ordering `fmt` applies and its shortest-float and `time.Time`
renderings are abstracted by insertion order, the fixed scientific
format, and the SOAP layout (no claim observes these). -/
def sprintDyn : DynVal → String
  | .null => "<nil>"
  | .str s => s
  | .bool b => if b then "true" else "false"
  | .int v => FormatInt v
  | .uint v => FormatUint v
  | .float q => FormatFloat q 16
  | .time t => formatTimeSOAP t
  | .smap m => "map[" ++ sprintPairsS m ++ "]"
  | .arr l => "[" ++ sprintList l ++ "]"
  | .imap m => "map[" ++ sprintPairsI m ++ "]"

/-- Space-separated `key:value` rendering of a string-keyed map. -/
def sprintPairsS : List (String × DynVal) → String
  | [] => ""
  | [(k, v)] => k ++ ":" ++ sprintDyn v
  | (k, v) :: t => k ++ ":" ++ sprintDyn v ++ " " ++ sprintPairsS t

/-- Space-separated rendering of a list of dynamic values. -/
def sprintList : List DynVal → String
  | [] => ""
  | [v] => sprintDyn v
  | v :: t => sprintDyn v ++ " " ++ sprintList t

/-- Space-separated `key:value` rendering of an interface-keyed map. -/
def sprintPairsI : List (DynVal × DynVal) → String
  | [] => ""
  | [(k, v)] => sprintDyn k ++ ":" ++ sprintDyn v
  | (k, v) :: t => sprintDyn k ++ ":" ++ sprintDyn v ++ " " ++ sprintPairsI t

end

/-- True when the dynamic value's Go type is `string`; `fmt.Sprint`
inserts a space between two operands only when neither is a string. -/
def isStrOperand : DynVal → Bool
  | .str _ => true
  | _ => false

/-- `(*Element).Str`: strict string getter. -/
def Str (e : Element) : GoRes String :=
  if skipNS e.Typ ≠ "string" then .err (typeError e "string")
  else .ok e.Text

/-- `(*Element).AsStr`: lenient string getter.  Its Go signature has no
error result: on a childed element it returns
`fmt.Sprint(e.Value())` — the rendering of the decoded value together
with the `error` operand (`<nil>` when nil) — and can only fail by
propagating a panic out of `Value`. -/
def AsStr (e : Element) : GoRes String :=
  if e.Children.isEmpty then .ok e.Text
  else
    match Value e with
    | .ok v =>
        .ok (sprintDyn v ++ (if isStrOperand v then "" else " ") ++ "<nil>")
    | .err m => .ok ("<nil> " ++ m)
    | .panicked => .panicked

/-- `(*Element).Bool`: strict boolean getter. -/
def Bool_ (e : Element) : GoRes Bool :=
  if skipNS e.Typ ≠ "boolean" then .err (typeError e "boolean")
  else
    match e.Text with
    | "true" => .ok true
    | "false" => .ok false
    | _ => .err (badValue e "")

/-- `(*Element).AsBool`: lenient boolean getter via `strconv.ParseBool`. -/
def AsBool (e : Element) : GoRes Bool :=
  if !e.Children.isEmpty then .err (badValue e "bool")
  else if e.Nil then .ok false
  else
    match parseBool e.Text with
    | some b => .ok b
    | none => .err (badValue e "bool")

/-- `soapIntTypeName`: wire tag for a signed width; other widths panic
(`none`). -/
def soapIntTypeName : ℕ → Option String
  | 64 => some "long"
  | 32 => some "int"
  | 16 => some "short"
  | 8 => some "byte"
  | _ => none

/-- `soapUintTypeName`: wire tag for an unsigned width. -/
def soapUintTypeName : ℕ → Option String
  | 64 => some "unsignedLong"
  | 32 => some "unsignedInt"
  | 16 => some "unsignedShort"
  | 8 => some "unsignedByte"
  | _ => none

/-- `goIntTypeName`: Go type name for a signed width. -/
def goIntTypeName : ℕ → Option String
  | 64 => some "int64"
  | 32 => some "int32"
  | 16 => some "int16"
  | 8 => some "int8"
  | _ => none

/-- `goUintTypeName`: Go type name for an unsigned width. -/
def goUintTypeName : ℕ → Option String
  | 64 => some "uint64"
  | 32 => some "uint32"
  | 16 => some "uint16"
  | 8 => some "uint8"
  | _ => none

/-- `soapFloatTypeName`: wire tag for a float width. -/
def soapFloatTypeName : ℕ → Option String
  | 64 => some "double"
  | 32 => some "float"
  | _ => none

/-- `goFloatTypeName`: Go type name for a float width. -/
def goFloatTypeName : ℕ → Option String
  | 64 => some "float64"
  | 32 => some "float32"
  | _ => none

/-- `(*Element).Int(bits)`: strict signed getter, requiring the wire
tag matching exactly the requested width. -/
def Int_ (e : Element) (bits : ℕ) : GoRes ℤ :=
  match soapIntTypeName bits with
  | none => .panicked
  | some t =>
      if skipNS e.Typ ≠ t then .err (typeError e t)
      else
        match ParseInt e.Text bits with
        | none => .err (badValue e "")
        | some v => .ok v

/-- `(*Element).Uint(bits)`: strict unsigned getter. -/
def Uint (e : Element) (bits : ℕ) : GoRes ℕ :=
  match soapUintTypeName bits with
  | none => .panicked
  | some t =>
      if skipNS e.Typ ≠ t then .err (typeError e t)
      else
        match ParseUint e.Text bits with
        | none => .err (badValue e "")
        | some v => .ok v

/-- `(*Element).Int8` from `element.go`, faithfully including its
defect: it delegates to `e.Uint(8)` — not `e.Int(8)` — and converts the
`uint64` result with `int8(v)` (two's-complement wrap). -/
def Int8 (e : Element) : GoRes ℤ :=
  match Uint e 8 with
  | .ok v =>
      .ok (if v % 256 < 128 then (v % 256 : ℤ) else (v % 256 : ℤ) - 256)
  | .err m => .err m
  | .panicked => .panicked

/-- `(*Element).AsInt(bits)`: lenient signed getter. -/
def AsInt (e : Element) (bits : ℕ) : GoRes ℤ :=
  match goIntTypeName bits with
  | none => .panicked
  | some t =>
      if !e.Children.isEmpty then .err (badValue e t)
      else if e.Nil then .ok 0
      else
        match ParseInt e.Text bits with
        | none => .err (badValue e t)
        | some v => .ok v

/-- `(*Element).AsUint(bits)`: lenient unsigned getter.  The source
fetches its error-message type name from `goIntTypeName` (not
`goUintTypeName`); the model keeps that slip. -/
def AsUint (e : Element) (bits : ℕ) : GoRes ℕ :=
  match goIntTypeName bits with
  | none => .panicked
  | some t =>
      if !e.Children.isEmpty then .err (badValue e t)
      else if e.Nil then .ok 0
      else
        match ParseUint e.Text bits with
        | none => .err (badValue e t)
        | some v => .ok v

/-- `(*Element).Float(bits)`: strict float getter (the `bits` argument
only selects Go's rounding, which the rational model abstracts). -/
def Float_ (e : Element) (bits : ℕ) : GoRes ℚ :=
  match soapFloatTypeName bits with
  | none => .panicked
  | some t =>
      if skipNS e.Typ ≠ t then .err (typeError e t)
      else
        match parseFloatQ e.Text with
        | none => .err (badValue e "")
        | some v => .ok v

/-- `(*Element).AsFloat(bits)`: lenient float getter. -/
def AsFloat (e : Element) (bits : ℕ) : GoRes ℚ :=
  match goFloatTypeName bits with
  | none => .panicked
  | some t =>
      if !e.Children.isEmpty then .err (badValue e t)
      else if e.Nil then .ok 0
      else
        match parseFloatQ e.Text with
        | none => .err (badValue e t)
        | some v => .ok v

/-- `(*Element).Time`: strict timestamp getter.  The source's type
mismatch message names `float` as the expected type; the model keeps
that slip. -/
def Time (e : Element) : GoRes GoTime :=
  if skipNS e.Typ ≠ "dateTime" then .err (typeError e "float")
  else
    match parseTimeSOAP e.Text with
    | none => .err (badValue e "")
    | some t => .ok t

/-- `(*Element).AsTime(loc)`: lenient timestamp getter, trying the SOAP
layout, then the SQL layouts of decreasing precision, in the location
`loc` (modelled by its UTC offset). -/
def AsTime (e : Element) (loc : ℤ) : GoRes GoTime :=
  if !e.Children.isEmpty then .err (badValue e "time.Time")
  else if e.Nil then .ok zeroTime
  else
    match parseTimeSOAP e.Text with
    | some v => .ok v
    | none =>
        match parseTimeSQL e.Text loc with
        | some v => .ok v
        | none =>
            match parseTimeSQL16 e.Text loc with
            | some v => .ok v
            | none =>
                match parseTimeSQL10 e.Text loc with
                | some v => .ok v
                | none => .err (badValue e "time.Time")

/-- The `Struct` loop of `Get`: scan the children in order and return
the first whose name equals the key.  When the loop exhausts without a
match, control in the source falls out of the `switch` into a leftover
debug `panic(fmt.Sprintf("%#v\n", e))`, so the miss case panics. -/
def getStruct : List Element → DynVal → GoRes (Option Element)
  | [], _ => .panicked
  | c :: cs, key =>
      if dynScalarBEq (.str c.Name) key then .ok (some c)
      else getStruct cs key

/-- The `Map` loop of `Get`: split each child with `MapItem`, decode
its key, compare with the lookup key (a panicking comparison for
uncomparable keys), and return the value element on the first match;
exhaustion returns the explicit `nil, nil` (not found). -/
def getMap : List Element → DynVal → GoRes (Option Element)
  | [], _ => .ok none
  | c :: cs, key =>
      match MapItem c with
      | .panicked => .panicked
      | .err m => .err m
      | .ok kv =>
          match Value kv.1 with
          | .err m => .err m
          | .panicked => .panicked
          | .ok kval =>
              match dynEqRes kval key with
              | .panicked => .panicked
              | .err m => .err m
              | .ok b => if b then .ok (some kv.2) else getMap cs key

/-- `(*Element).Get` from `element.go`: keyed lookup on a `Struct` or
`Map` shaped element.  A nil element is an error; a non-`Struct`,
non-`Map` wire type reaches the leftover debug panic (the `return`
after it is unreachable). -/
def Get (e : Element) (key : DynVal) : GoRes (Option Element) :=
  if e.Nil then .err ("soap: can" ++ sq ++ "t get value from nil Struct/Map")
  else
    match skipNS e.Typ with
    | "Struct" => getStruct e.Children key
    | "Map" => getMap e.Children key
    | _ => .panicked

/-- `(*Element).GetValue`: `Get` then `Value`.  A not-found `Get`
returns a nil pointer, so the `c.Value()` call dereferences nil and
panics. -/
def GetValue (e : Element) (key : DynVal) : GoRes DynVal :=
  match Get e key with
  | .err m => .err m
  | .panicked => .panicked
  | .ok none => .panicked
  | .ok (some c) => Value c

mutual

/-- The universe of native Go values `MakeElement` can receive
(`interface{}`): the nil interface, single-level pointers, the
supported scalars (`int` shares `i64`, both carry the `long` tag),
`time.Time`, structs, and the unsupported kinds — slices, arrays, maps
and everything else (func, chan, ...), the latter collapsed into
`other` with their kind name. -/
inductive GoVal where
  | nilIface
  | ptr (p : Option GoVal)
  | str (s : String)
  | bool (b : Bool)
  | i64 (v : ℤ)
  | i32 (v : ℤ)
  | i16 (v : ℤ)
  | i8 (v : ℤ)
  | u64 (v : ℕ)
  | u32 (v : ℕ)
  | u16 (v : ℕ)
  | u8 (v : ℕ)
  | f32 (q : ℚ)
  | f64 (q : ℚ)
  | time (t : GoTime)
  | struct_ (fields : List GoField)
  | slice (elems : List GoVal)
  | array (elems : List GoVal)
  | gmap (entries : List (GoVal × GoVal))
  | other (kindName : String)

/-- One declared struct field as reflection sees it: Go field name,
`soap` tag value (empty when absent), exported flag (`PkgPath == ""`),
and current value. -/
inductive GoField where
  | mk (name : String) (tag : String) (exported : Bool) (val : GoVal)

end

/-- The field's Go name. -/
def GoField.name : GoField → String
  | .mk n _ _ _ => n

/-- The field's `soap` tag. -/
def GoField.tag : GoField → String
  | .mk _ t _ _ => t

/-- Whether the field is exported. -/
def GoField.exported : GoField → Bool
  | .mk _ _ e _ => e

/-- The field's current value. -/
def GoField.val : GoField → GoVal
  | .mk _ _ _ v => v

/-- `isEmptyValue` from `element.go`: the zero/empty test behind the
`omitempty` option. -/
def isEmptyValue : GoVal → Bool
  | .str s => s.data.isEmpty
  | .bool b => !b
  | .i64 v | .i32 v | .i16 v | .i8 v => v == 0
  | .u64 v | .u32 v | .u16 v | .u8 v => v == 0
  | .f32 q | .f64 q => q == 0
  | .ptr p => p.isNone
  | .nilIface => true
  | .slice l | .array l => l.isEmpty
  | .gmap m => m.isEmpty
  | .time _ => false
  | .struct_ _ => false
  | .other _ => false

/-- A field's value is strictly smaller than the field. -/
theorem GoField_val_sizeOf (f : GoField) : sizeOf f.val < sizeOf f := by
  rcases f with ⟨n, t, e, v⟩
  simp only [GoField.val, GoField.mk.sizeOf_spec]
  omega

mutual

/-- `MakeElement` from `element.go`: encode a native value under the
given name.  A nil interface or nil pointer yields a bare nil element;
a non-nil pointer is dereferenced once; everything else goes through
the kind switch (`makeDeref`). -/
def MakeElement (name : String) (a : GoVal) : GoRes Element :=
  match a with
  | .nilIface => .ok (Element.mk name "" true "" [])
  | .ptr none => .ok (Element.mk name "" true "" [])
  | .ptr (some p) => makeDeref name p
  | v => makeDeref name v
termination_by (sizeOf a, 1)
decreasing_by
  all_goals simp_wf
  all_goals
    first
    | (apply Prod.Lex.right; omega)
    | (apply Prod.Lex.left; omega)

/-- The `time.Time` type assertion and kind switch of `MakeElement`
after the pointer has been dereferenced.  Slices, arrays and maps
panic (`not implemented`), as does every unrecognized kind — including
a doubly indirect pointer or an interface, which a single `Elem()`
cannot strip. -/
def makeDeref (name : String) (v : GoVal) : GoRes Element :=
  match v with
  | .nilIface => .panicked
  | .ptr _ => .panicked
  | .time t =>
      .ok (Element.mk name "xsd:dateTime" false (formatTimeSOAP t) [])
  | .str s => .ok (Element.mk name "xsd:string" false s [])
  | .bool b =>
      .ok (Element.mk name "xsd:boolean" false
        (if b then "true" else "false") [])
  | .i64 n => .ok (Element.mk name "xsd:long" false (FormatInt n) [])
  | .i32 n => .ok (Element.mk name "xsd:int" false (FormatInt n) [])
  | .i16 n => .ok (Element.mk name "xsd:short" false (FormatInt n) [])
  | .i8 n => .ok (Element.mk name "xsd:byte" false (FormatInt n) [])
  | .u64 n =>
      .ok (Element.mk name "xsd:unsignedLong" false (FormatUint n) [])
  | .u32 n =>
      .ok (Element.mk name "xsd:unsignedInt" false (FormatUint n) [])
  | .u16 n =>
      .ok (Element.mk name "xsd:unsignedShort" false (FormatUint n) [])
  | .u8 n =>
      .ok (Element.mk name "xsd:unsignedByte" false (FormatUint n) [])
  | .f32 q => .ok (Element.mk name "xsd:float" false (FormatFloat q 7) [])
  | .f64 q => .ok (Element.mk name "xsd:double" false (FormatFloat q 16) [])
  | .struct_ fields =>
      match makeFields fields with
      | .ok cs => .ok (Element.mk name "SOAP-ENC:Struct" false "" cs)
      | .err m => .err m
      | .panicked => .panicked
  | .slice _ => .panicked
  | .array _ => .panicked
  | .gmap _ => .panicked
  | .other _ => .panicked
termination_by (sizeOf v, 0)
decreasing_by
  all_goals simp_wf
  apply Prod.Lex.left
  omega

/-- The struct-field loop of `MakeElement`: skip unexported fields;
split the `soap` tag at the first comma; skip on `omitempty` with an
empty value or on `in`; skip the `-` name; default an empty wire name
to the Go field name; recursively encode and append. -/
def makeFields : List GoField → GoRes (List Element)
  | [] => .ok []
  | f :: fs =>
      if !f.exported then makeFields fs
      else
        let cut := cutComma f.tag
        let skip :=
          match cut.2 with
          | some opts =>
              (strContains opts ",omitempty" && isEmptyValue f.val)
                || strContains opts ",in"
          | none => false
        if skip then makeFields fs
        else if cut.1 = "-" then makeFields fs
        else
          match MakeElement (if cut.1 = "" then f.name else cut.1) f.val with
          | .err m => .err m
          | .panicked => .panicked
          | .ok e =>
              match makeFields fs with
              | .ok es => .ok (e :: es)
              | .err m => .err m
              | .panicked => .panicked
termination_by fs => (sizeOf fs, 2)
decreasing_by
  all_goals simp_wf
  all_goals apply Prod.Lex.left
  all_goals first
    | omega
    | (have hfv := GoField_val_sizeOf f; omega)

end

/-- The static kind of a target struct field, as `LoadStruct`'s
`reflect` switch distinguishes them.  `other` covers every kind the
switch does not handle (including plain `int`), carrying the Go type
name used in the `unsupported field type` error; `time.Time` is the
one struct type handled specially. -/
inductive FKind where
  | str
  | bool
  | i64
  | i32
  | i16
  | i8
  | u64
  | u32
  | u16
  | u8
  | f64
  | f32
  | time
  | other (typeName : String)
deriving Repr, DecidableEq

/-- A target field's current value.  Unsupported-kind values are
opaque (a string payload whose zero is the empty string). -/
inductive FVal where
  | str (s : String)
  | bool (b : Bool)
  | int (v : ℤ)
  | uint (v : ℕ)
  | float (q : ℚ)
  | time (t : GoTime)
  | other (payload : String)
deriving Repr, DecidableEq

/-- `reflect.Zero` for a field kind. -/
def zeroFVal : FKind → FVal
  | .str => .str ""
  | .bool => .bool false
  | .i64 | .i32 | .i16 | .i8 => .int 0
  | .u64 | .u32 | .u16 | .u8 => .uint 0
  | .f64 | .f32 => .float 0
  | .time => .time zeroTime
  | .other _ => .other ""

/-- One declared field of the target struct, as reflection sees it:
Go field name, `soap` tag, exported flag, static kind, and current
value. -/
structure SField where
  name : String
  tag : String
  exported : Bool
  kind : FKind
  val : FVal
deriving Repr, DecidableEq

/-- The wire name `LoadStruct` computes for a field: the tag up to the
first comma, defaulting to the Go field name when empty. -/
def fieldWireName (f : SField) : String :=
  let n := (cutComma f.tag).1
  if n = "" then f.name else n

/-- Replace a field's value. -/
def setVal (f : SField) (v : FVal) : SField :=
  ⟨f.name, f.tag, f.exported, f.kind, v⟩

/-- Outcome of one field conversion inside `LoadStruct`: success with
the converted value; a conversion error, distinguishing whether the
`fv.Set*` call still wrote the getter's zero result into the field
(every scalar case does) or did not touch it (the unsupported-kind
case); or a panic propagating out of the getter. -/
inductive ConvRes where
  | ok (v : FVal)
  | errWrite (v : FVal) (msg : String)
  | errNoWrite (msg : String)
  | panicked
deriving Repr, DecidableEq

/-- Lift a signed getter result: on error the field is still written
with the returned 0. -/
def intConv (r : GoRes ℤ) : ConvRes :=
  match r with
  | .ok v => .ok (.int v)
  | .err m => .errWrite (.int 0) m
  | .panicked => .panicked

/-- Lift an unsigned getter result. -/
def uintConv (r : GoRes ℕ) : ConvRes :=
  match r with
  | .ok v => .ok (.uint v)
  | .err m => .errWrite (.uint 0) m
  | .panicked => .panicked

/-- Lift a float getter result. -/
def floatConv (r : GoRes ℚ) : ConvRes :=
  match r with
  | .ok v => .ok (.float v)
  | .err m => .errWrite (.float 0) m
  | .panicked => .panicked

/-- The per-kind conversion switch of `LoadStruct` on a found element:
strict getters when `strict`, lenient ones otherwise, each `Set*` call
writing the getter's result even when the getter also returned an
error.  Faithful to the source, the `f32` strict case calls
`item.Float(64)` (not 32), and both float cases parse with lenient
width 64; `loc` is the UTC offset of `time.Local`, which the lenient
timestamp path uses. -/
def convertField (item : Element) (strict : Bool) (loc : ℤ) :
    FKind → ConvRes
  | .str =>
      if strict then
        match Str item with
        | .ok s => .ok (.str s)
        | .err m => .errWrite (.str "") m
        | .panicked => .panicked
      else
        match AsStr item with
        | .ok s => .ok (.str s)
        | .err m => .errWrite (.str "") m
        | .panicked => .panicked
  | .bool =>
      match (if strict then Bool_ item else AsBool item) with
      | .ok b => .ok (.bool b)
      | .err m => .errWrite (.bool false) m
      | .panicked => .panicked
  | .i64 => intConv (if strict then Int_ item 64 else AsInt item 64)
  | .i32 => intConv (if strict then Int_ item 32 else AsInt item 32)
  | .i16 => intConv (if strict then Int_ item 16 else AsInt item 16)
  | .i8 => intConv (if strict then Int_ item 8 else AsInt item 8)
  | .u64 => uintConv (if strict then Uint item 64 else AsUint item 64)
  | .u32 => uintConv (if strict then Uint item 32 else AsUint item 32)
  | .u16 => uintConv (if strict then Uint item 16 else AsUint item 16)
  | .u8 => uintConv (if strict then Uint item 8 else AsUint item 8)
  | .f64 => floatConv (if strict then Float_ item 64 else AsFloat item 64)
  | .f32 => floatConv (if strict then Float_ item 64 else AsFloat item 64)
  | .time =>
      match (if strict then Time item else AsTime item loc) with
      | .ok t => .ok (.time t)
      | .err m => .errWrite (.time zeroTime) m
      | .panicked => .panicked
  | .other tn => .errNoWrite ("soap: unsupported field type " ++ tn)

/-- The result of a projection run: the final field list, or — on the
first error or panic — the field list at the moment of abort (earlier
fields keep their converted values, later fields are untouched)
together with the unchanged error. -/
inductive LoadOut where
  | done (fs : List SField)
  | failed (fs : List SField) (msg : String)
  | panicked (fs : List SField)
deriving Repr, DecidableEq

/-- Prepend an already-processed field to a projection outcome. -/
def consOut (f : SField) : LoadOut → LoadOut
  | .done fs => .done (f :: fs)
  | .failed fs m => .failed (f :: fs) m
  | .panicked fs => .panicked (f :: fs)

/-- `(*Element).LoadStruct` from `element.go`, over a field-descriptor
list (the pointer-to-struct argument check is outside the model).  Per
field, in declaration order: skip unexported fields and `-` names;
`Get` the wire name (errors and panics abort); a nil result is the
missing-field case — strict errors, lenient zeroes the field and
continues; otherwise convert per kind, aborting on the first
conversion error with the error returned as-is. -/
def LoadStruct (e : Element) (strict : Bool) (loc : ℤ) :
    List SField → LoadOut
  | [] => .done []
  | f :: rest =>
      if !f.exported then consOut f (LoadStruct e strict loc rest)
      else if (cutComma f.tag).1 = "-" then
        consOut f (LoadStruct e strict loc rest)
      else
        let nm := fieldWireName f
        match Get e (.str nm) with
        | .panicked => .panicked (f :: rest)
        | .err m => .failed (f :: rest) m
        | .ok none =>
            if strict then
              .failed (f :: rest)
                ("soap: there is no field of name " ++ sq ++ nm ++ sq)
            else
              consOut (setVal f (zeroFVal f.kind))
                (LoadStruct e strict loc rest)
        | .ok (some item) =>
            match convertField item strict loc f.kind with
            | .panicked => .panicked (f :: rest)
            | .errNoWrite m => .failed (f :: rest) m
            | .errWrite v m => .failed (setVal f v :: rest) m
            | .ok v => consOut (setVal f v) (LoadStruct e strict loc rest)

/-- C6: for every Element whose nil flag is true, `Value()` returns the
generic no-value result (`null`) with no error, regardless of the wire
type tag, text, or children. -/
theorem c6_value_nil (e : Element) (h : e.Nil = true) :
    Value e = .ok .null := by
  simp only [Value, h, if_true]

/-- Witness for C6 at a nil element carrying a scalar wire type, junk
text and even a child. -/
theorem c6_witness :
    Value (Element.mk "n" "xsd:long" true "junk"
      [Element.mk "c" "xsd:string" false "w" []]) = .ok .null :=
  c6_value_nil (Element.mk "n" "xsd:long" true "junk"
    [Element.mk "c" "xsd:string" false "w" []]) rfl

/-- C9: encoding a native slice, array or map value fails fatally
(panics), for every such value; `MakeElement` refuses the whole kind. -/
theorem c9_encode_seq_map_panics (name : String) (l : List GoVal)
    (m : List (GoVal × GoVal)) :
    MakeElement name (.slice l) = .panicked ∧
    MakeElement name (.array l) = .panicked ∧
    MakeElement name (.gmap m) = .panicked := by
  refine ⟨?_, ?_, ?_⟩ <;> simp [MakeElement, makeDeref]

/-- The record-shaped source element for C2: three children, two of
them sharing the name `a`. -/
def c2src : Element :=
  Element.mk "s" "SOAP-ENC:Struct" false ""
    [Element.mk "a" "xsd:string" false "1" [],
     Element.mk "a" "xsd:string" false "2" [],
     Element.mk "b" "xsd:string" false "3" []]

/-- C2 (against the claim): `Get` on a record-shaped element scans the
children in order and returns the first exact-name match — but on a
miss it does not return a not-found result: the leftover debug panic
in the source fires. -/
theorem c2_get_record_missing_panics :
    Get c2src (.str "a") = .ok (some (Element.mk "a" "xsd:string" false "1" [])) ∧
    Get c2src (.str "b") = .ok (some (Element.mk "b" "xsd:string" false "3" [])) ∧
    Get c2src (.str "zzz") = .panicked :=
  ⟨rfl, rfl, rfl⟩

/-- The target field for C3: a string field named `B` with a non-zero
current value. -/
def c3fB : SField := ⟨"B", "", true, .str, .str "old"⟩

/-- A record-shaped source for C3 that has no child named `B`. -/
def c3struct : Element :=
  Element.mk "s" "SOAP-ENC:Struct" false ""
    [Element.mk "A" "xsd:string" false "x" []]

/-- A map-shaped source for C3 with no entries at all. -/
def c3map : Element := Element.mk "m" "SOAP-ENC:Map" false "" []

/-- C3 (against the claim): projecting a field whose wire name is
missing from a record-shaped source panics (both modes), because `Get`
panics on a record miss; only a map-shaped source exhibits the claimed
behaviour — strict fails with the missing-field error, lenient resets
the field to its zero value and continues. -/
theorem c3_loadStruct_missing_field :
    LoadStruct c3struct true 0 [c3fB] = .panicked [c3fB] ∧
    LoadStruct c3struct false 0 [c3fB] = .panicked [c3fB] ∧
    LoadStruct c3map true 0 [c3fB] =
      .failed [c3fB] ("soap: there is no field of name " ++ sq ++ "B" ++ sq) ∧
    LoadStruct c3map false 0 [c3fB] = .done [setVal c3fB (.str "")] :=
  ⟨rfl, rfl, rfl, rfl⟩

/-- The element `MakeElement` produces for the `int8` value `5`. -/
def c1elem : Element := Element.mk "x" "xsd:byte" false "5" []

/-- C1 (against the claim): the encoder tags an `int8` as `byte`, but
the strict `Int8` getter — which delegates to `Uint(8)` instead of
`Int(8)` — demands `unsignedByte` and fails with a type mismatch, so
the strict round trip breaks for the signed 8-bit kind.  The generic
strict getter at width 8, `Int(8)`, recovers the value, showing the
delegation to be the slip. -/
theorem c1_int8_roundtrip_fails :
    MakeElement "x" (.i8 5) = .ok c1elem ∧
    Int8 c1elem = .err (typeError c1elem "unsignedByte") ∧
    Int_ c1elem 8 = .ok 5 := by
  refine ⟨?_, rfl, rfl⟩
  simp only [MakeElement, makeDeref, c1elem]
  rfl

/-- A map item with a single child (named `key`). -/
def c5item1 : Element :=
  Element.mk "item" "" false "" [Element.mk "key" "xsd:string" false "k" []]

/-- A map-shaped element holding only `c5item1`. -/
def c5map1 : Element := Element.mk "m" "SOAP-ENC:Map" false "" [c5item1]

/-- A map item with children named `key` and `extra` (no `value`). -/
def c5itemKX : Element :=
  Element.mk "item" "" false ""
    [Element.mk "key" "xsd:string" false "k" [],
     Element.mk "extra" "xsd:string" false "v" []]

/-- A map-shaped element holding only `c5itemKX`. -/
def c5mapKX : Element := Element.mk "m" "SOAP-ENC:Map" false "" [c5itemKX]

/-- A map item with three children (`key`, `value`, and one more). -/
def c5item3 : Element :=
  Element.mk "item" "" false ""
    [Element.mk "key" "xsd:string" false "k" [],
     Element.mk "value" "xsd:string" false "v" [],
     Element.mk "x" "xsd:string" false "w" []]

/-- C5 (against the claim): a map item with fewer than two children
does not produce a decode error — the missing `return` after the
child-count check lets the code index `Children[0]`/`Children[1]` and
panic — while the `key`/`extra` item fails with `map item without a
value` and a three-child item does report the bad child count. -/
theorem c5_map_item_malformed :
    MapItem c5item1 = .panicked ∧
    Value c5map1 = .panicked ∧
    Value c5mapKX = .err "soap: map item without a value" ∧
    MapItem c5item3 = .err "soap: bad number of children in map item" := by
  refine ⟨rfl, ?_, ?_, rfl⟩
  · simp [Value, valueMap, c5map1, c5item1, MapItem, Element.Nil,
      Element.Typ, Element.Text, Element.Children, Element.Name, skipNS,
      skipNSAux]
  · simp [Value, valueMap, c5mapKX, c5itemKX, MapItem, Element.Nil,
      Element.Typ, Element.Text, Element.Children, Element.Name, skipNS,
      skipNSAux]

/-- A record-shaped source for C4 whose children `A` and `B` are both
strings. -/
def c4src : Element :=
  Element.mk "s" "SOAP-ENC:Struct" false ""
    [Element.mk "A" "xsd:string" false "x" [],
     Element.mk "B" "xsd:string" false "y" []]

/-- The first C4 target field: a string field `A`. -/
def c4fA : SField := ⟨"A", "", true, .str, .str "old"⟩

/-- The second C4 target field: an `int64` field `B` holding 7, which
the string-typed wire value cannot satisfy strictly. -/
def c4fB : SField := ⟨"B", "", true, .i64, .int 7⟩

/-- C4 counterexample: in the strict projection of `c4src` onto
`[A, B]`, the conversion of `B` fails — and the abort overwrites `B`
(7 becomes 0, the failed getter's result), while the returned error is
the raw conversion error, which does not contain the wire name `B`. -/
theorem c4_counterexample :
    c4fB.val = .int 7 ∧
    LoadStruct c4src true 0 [c4fA, c4fB] =
      .failed [setVal c4fA (.str "x"), setVal c4fB (.int 0)]
        (typeError (Element.mk "B" "xsd:string" false "y" []) "long") ∧
    strContains
      (typeError (Element.mk "B" "xsd:string" false "y" []) "long") "B"
      = false :=
  ⟨rfl, rfl, rfl⟩

/-- C4 as amended: a conversion error aborts the projection
immediately and the conversion error is returned unchanged (not
annotated with the wire name); the fields after the failing one are
untouched, but the failing field itself is overwritten with the failed
getter's zero result — except for the unsupported-kind error, which
leaves it untouched; a successfully converted field keeps its new
value while the remaining fields are processed. -/
theorem c4_conversion_error_aborts (e : Element) (strict : Bool)
    (loc : ℤ) (f : SField) (rest : List SField) (item : Element)
    (v : FVal) (m : String) (hexp : f.exported = true)
    (htag : (cutComma f.tag).1 ≠ "-")
    (hget : Get e (.str (fieldWireName f)) = .ok (some item)) :
    (convertField item strict loc f.kind = .errWrite v m →
       LoadStruct e strict loc (f :: rest) = .failed (setVal f v :: rest) m) ∧
    (convertField item strict loc f.kind = .errNoWrite m →
       LoadStruct e strict loc (f :: rest) = .failed (f :: rest) m) ∧
    (convertField item strict loc f.kind = .ok v →
       LoadStruct e strict loc (f :: rest) =
         consOut (setVal f v) (LoadStruct e strict loc rest)) := by
  refine ⟨?_, ?_, ?_⟩ <;> intro hc <;>
    simp only [LoadStruct, hexp, htag, hget, hc, Bool.not_true,
      Bool.false_eq_true, if_false, if_neg htag]

/-- Witness for C4: the amended theorem applied to the concrete strict
run of `c4src` onto `[B]` (the `errWrite` branch). -/
theorem c4_witness :
    LoadStruct c4src true 0 [c4fB] =
      .failed [setVal c4fB (.int 0)]
        (typeError (Element.mk "B" "xsd:string" false "y" []) "long") :=
  (c4_conversion_error_aborts c4src true 0 c4fB []
      (Element.mk "B" "xsd:string" false "y" []) (.int 0)
      (typeError (Element.mk "B" "xsd:string" false "y" []) "long")
      rfl (by decide) rfl).1 rfl

/-- A string-typed element that nevertheless has a child. -/
def c7elem : Element :=
  Element.mk "n" "xsd:string" false "hello"
    [Element.mk "c" "xsd:string" false "w" []]

/-- C7 counterexample: on a childed element the lenient string accessor
does not return an error — it has no error result at all — but the
`fmt` rendering of the generic decode (here `hello<nil>`: the decoded
string plus the printed nil error operand). -/
theorem c7_counterexample :
    c7elem.Children ≠ [] ∧ AsStr c7elem = .ok "hello<nil>" := by
  constructor
  · simp [c7elem, Element.Children]
  · simp only [AsStr, Value, sprintDyn, isStrOperand, c7elem,
      Element.Nil, Element.Typ, Element.Text, Element.Children,
      Element.Name, skipNS, skipNSAux]
    rfl

/-- C7 as amended: on every Element with a non-empty children list,
every lenient scalar accessor that has an error result — bool, signed
and unsigned integers of each width, floats of both widths, timestamp
— returns an error; the lenient string accessor is the exception,
since its Go signature has no error result. -/
theorem c7_childed_lenient_errors (e : Element) (loc : ℤ)
    (h : e.Children ≠ []) :
    (AsBool e).isErr = true ∧
    (AsInt e 64).isErr = true ∧ (AsInt e 32).isErr = true ∧
    (AsInt e 16).isErr = true ∧ (AsInt e 8).isErr = true ∧
    (AsUint e 64).isErr = true ∧ (AsUint e 32).isErr = true ∧
    (AsUint e 16).isErr = true ∧ (AsUint e 8).isErr = true ∧
    (AsFloat e 64).isErr = true ∧ (AsFloat e 32).isErr = true ∧
    (AsTime e loc).isErr = true := by
  have hne : e.Children.isEmpty = false := by
    cases hL : e.Children with
    | nil => exact absurd hL h
    | cons a l => rfl
  refine ⟨?_, ?_, ?_, ?_, ?_, ?_, ?_, ?_, ?_, ?_, ?_, ?_⟩ <;>
    simp [AsBool, AsInt, AsUint, AsFloat, AsTime, goIntTypeName,
      goFloatTypeName, hne, GoRes.isErr]

/-- Witness for C7: the amended theorem applied to the concrete
childed element `c7elem`. -/
theorem c7_witness :
    (AsBool c7elem).isErr = true ∧
    (AsInt c7elem 64).isErr = true ∧ (AsInt c7elem 32).isErr = true ∧
    (AsInt c7elem 16).isErr = true ∧ (AsInt c7elem 8).isErr = true ∧
    (AsUint c7elem 64).isErr = true ∧ (AsUint c7elem 32).isErr = true ∧
    (AsUint c7elem 16).isErr = true ∧ (AsUint c7elem 8).isErr = true ∧
    (AsFloat c7elem 64).isErr = true ∧ (AsFloat c7elem 32).isErr = true ∧
    (AsTime c7elem 5).isErr = true :=
  c7_childed_lenient_errors c7elem 5 (by simp [c7elem, Element.Children])

/-- A nil-flagged element that still carries a wire type and text. -/
def c8elem : Element := Element.mk "n" "xsd:string" true "abc" []

/-- C8 counterexample: on a nil element that carries a wire type tag
and text, the strict string getter succeeds (no type-mismatch error)
and the lenient string accessor returns the text, not the zero
value. -/
theorem c8_counterexample :
    c8elem.Nil = true ∧ c8elem.Children = [] ∧
    Str c8elem = .ok "abc" ∧ AsStr c8elem = .ok "abc" :=
  ⟨rfl, rfl, rfl, rfl⟩

/-- `skipNS` of the empty string is the empty string. -/
theorem skipNS_empty : skipNS "" = "" := rfl

/-- C8 as amended: on every bare nil element — nil flag set, no
children, empty wire type and empty text, as the encoder produces for
absent values — each lenient getter returns its kind's zero value with
no error, and each strict getter fails with a type-mismatch error:
exactly the `typeError` result naming the empty actual wire type and
the expected tag (for `Time` the expected-tag text is the source's own
`float` slip), never a malformed-text `badValue` error. -/
theorem c8_nil_bare_getters (e : Element) (loc : ℤ)
    (h1 : e.Nil = true) (h2 : e.Children = []) (h3 : e.Typ = "")
    (h4 : e.Text = "") :
    (AsStr e = .ok "" ∧ AsBool e = .ok false ∧
     AsInt e 64 = .ok 0 ∧ AsInt e 32 = .ok 0 ∧
     AsInt e 16 = .ok 0 ∧ AsInt e 8 = .ok 0 ∧
     AsUint e 64 = .ok 0 ∧ AsUint e 32 = .ok 0 ∧
     AsUint e 16 = .ok 0 ∧ AsUint e 8 = .ok 0 ∧
     AsFloat e 64 = .ok 0 ∧ AsFloat e 32 = .ok 0 ∧
     AsTime e loc = .ok zeroTime) ∧
    (Str e = .err (typeError e "string") ∧
     Bool_ e = .err (typeError e "boolean") ∧
     Int_ e 64 = .err (typeError e "long") ∧
     Int_ e 32 = .err (typeError e "int") ∧
     Int_ e 16 = .err (typeError e "short") ∧
     Int_ e 8 = .err (typeError e "byte") ∧
     Uint e 64 = .err (typeError e "unsignedLong") ∧
     Uint e 32 = .err (typeError e "unsignedInt") ∧
     Uint e 16 = .err (typeError e "unsignedShort") ∧
     Uint e 8 = .err (typeError e "unsignedByte") ∧
     Float_ e 64 = .err (typeError e "double") ∧
     Float_ e 32 = .err (typeError e "float") ∧
     Time e = .err (typeError e "float")) := by
  refine ⟨⟨?_, ?_, ?_, ?_, ?_, ?_, ?_, ?_, ?_, ?_, ?_, ?_, ?_⟩,
    ⟨?_, ?_, ?_, ?_, ?_, ?_, ?_, ?_, ?_, ?_, ?_, ?_, ?_⟩⟩ <;>
    simp [AsStr, AsBool, AsInt, AsUint, AsFloat, AsTime, Str, Bool_,
      Int_, Int8, Uint, Float_, Time, goIntTypeName, goFloatTypeName,
      soapIntTypeName, soapUintTypeName, soapFloatTypeName, h1, h2, h3,
      h4, skipNS_empty, GoRes.isErr]

/-- Witness for C8: the amended theorem applied to the bare nil
element the encoder itself produces. -/
theorem c8_witness :
    (AsStr (Element.mk "n" "" true "" []) = .ok "" ∧
     AsBool (Element.mk "n" "" true "" []) = .ok false ∧
     AsInt (Element.mk "n" "" true "" []) 64 = .ok 0 ∧
     AsInt (Element.mk "n" "" true "" []) 32 = .ok 0 ∧
     AsInt (Element.mk "n" "" true "" []) 16 = .ok 0 ∧
     AsInt (Element.mk "n" "" true "" []) 8 = .ok 0 ∧
     AsUint (Element.mk "n" "" true "" []) 64 = .ok 0 ∧
     AsUint (Element.mk "n" "" true "" []) 32 = .ok 0 ∧
     AsUint (Element.mk "n" "" true "" []) 16 = .ok 0 ∧
     AsUint (Element.mk "n" "" true "" []) 8 = .ok 0 ∧
     AsFloat (Element.mk "n" "" true "" []) 64 = .ok 0 ∧
     AsFloat (Element.mk "n" "" true "" []) 32 = .ok 0 ∧
     AsTime (Element.mk "n" "" true "" []) 3 = .ok zeroTime) ∧
    (Str (Element.mk "n" "" true "" []) =
       .err (typeError (Element.mk "n" "" true "" []) "string") ∧
     Bool_ (Element.mk "n" "" true "" []) =
       .err (typeError (Element.mk "n" "" true "" []) "boolean") ∧
     Int_ (Element.mk "n" "" true "" []) 64 =
       .err (typeError (Element.mk "n" "" true "" []) "long") ∧
     Int_ (Element.mk "n" "" true "" []) 32 =
       .err (typeError (Element.mk "n" "" true "" []) "int") ∧
     Int_ (Element.mk "n" "" true "" []) 16 =
       .err (typeError (Element.mk "n" "" true "" []) "short") ∧
     Int_ (Element.mk "n" "" true "" []) 8 =
       .err (typeError (Element.mk "n" "" true "" []) "byte") ∧
     Uint (Element.mk "n" "" true "" []) 64 =
       .err (typeError (Element.mk "n" "" true "" []) "unsignedLong") ∧
     Uint (Element.mk "n" "" true "" []) 32 =
       .err (typeError (Element.mk "n" "" true "" []) "unsignedInt") ∧
     Uint (Element.mk "n" "" true "" []) 16 =
       .err (typeError (Element.mk "n" "" true "" []) "unsignedShort") ∧
     Uint (Element.mk "n" "" true "" []) 8 =
       .err (typeError (Element.mk "n" "" true "" []) "unsignedByte") ∧
     Float_ (Element.mk "n" "" true "" []) 64 =
       .err (typeError (Element.mk "n" "" true "" []) "double") ∧
     Float_ (Element.mk "n" "" true "" []) 32 =
       .err (typeError (Element.mk "n" "" true "" []) "float") ∧
     Time (Element.mk "n" "" true "" []) =
       .err (typeError (Element.mk "n" "" true "" []) "float")) :=
  c8_nil_bare_getters (Element.mk "n" "" true "" []) 3 rfl rfl rfl rfl

mutual

/-- Every nil-flagged node in the tree is bare: empty wire type, empty
text, no children. -/
def allNilBare : Element → Bool
  | .mk _ t b tx ch =>
      (if b then t == "" && tx == "" && ch.isEmpty else true)
        && allNilBareList ch

/-- `allNilBare` over a child list. -/
def allNilBareList : List Element → Bool
  | [] => true
  | c :: cs => allNilBare c && allNilBareList cs

end

/-- The joint induction behind C10, by strong induction on the size of
the encoded value: every `ok` result of `MakeElement`, `makeDeref` or
`makeFields` contains only bare nil-flagged nodes. -/
theorem nilBare_aux (n : ℕ) :
    (∀ (name : String) (v : GoVal) (e : Element), sizeOf v ≤ n →
       makeDeref name v = .ok e → allNilBare e = true) ∧
    (∀ (name : String) (a : GoVal) (e : Element), sizeOf a ≤ n →
       MakeElement name a = .ok e → allNilBare e = true) ∧
    (∀ (fs : List GoField) (es : List Element), sizeOf fs ≤ n →
       makeFields fs = .ok es → allNilBareList es = true) := by
  induction n using Nat.strong_induction_on with
  | _ n ih =>
    have hfields : ∀ (fs : List GoField) (es : List Element),
        sizeOf fs ≤ n → makeFields fs = .ok es →
        allNilBareList es = true := by
      intro fs es hsz h
      cases fs with
      | nil =>
          simp only [makeFields] at h
          cases h
          rfl
      | cons f rest =>
          have hszr : sizeOf rest < n := by
            have : sizeOf rest < sizeOf (f :: rest) := by
              simp only [List.cons.sizeOf_spec]
              have : 0 < sizeOf f := by cases f <;> simp_arith
              omega
            omega
          have hszv : sizeOf f.val < n := by
            have h1 := GoField_val_sizeOf f
            have : sizeOf f < sizeOf (f :: rest) := by
              simp only [List.cons.sizeOf_spec]; omega
            omega
          simp only [makeFields] at h
          split at h
          · exact (ih (sizeOf rest) hszr).2.2 rest es le_rfl h
          · split at h
            · exact (ih (sizeOf rest) hszr).2.2 rest es le_rfl h
            · split at h
              · exact (ih (sizeOf rest) hszr).2.2 rest es le_rfl h
              · split at h
                · simp at h
                · simp at h
                · rename_i e1 he1
                  split at h
                  · rename_i es1 hes1
                    cases h
                    have hb1 := (ih (sizeOf f.val) hszv).2.1 _ f.val e1
                      le_rfl he1
                    have hb2 := (ih (sizeOf rest) hszr).2.2 rest es1
                      le_rfl hes1
                    simp [allNilBareList, hb1, hb2]
                  · simp at h
                  · simp at h
    have hderef : ∀ (name : String) (v : GoVal) (e : Element),
        sizeOf v ≤ n → makeDeref name v = .ok e →
        allNilBare e = true := by
      intro name v e hsz h
      cases v with
      | nilIface => simp [makeDeref] at h
      | ptr p => simp [makeDeref] at h
      | str s =>
          simp only [makeDeref] at h
          cases h
          simp [allNilBare, allNilBareList]
      | bool b =>
          simp only [makeDeref] at h
          cases h
          simp [allNilBare, allNilBareList]
      | i64 x =>
          simp only [makeDeref] at h
          cases h
          simp [allNilBare, allNilBareList]
      | i32 x =>
          simp only [makeDeref] at h
          cases h
          simp [allNilBare, allNilBareList]
      | i16 x =>
          simp only [makeDeref] at h
          cases h
          simp [allNilBare, allNilBareList]
      | i8 x =>
          simp only [makeDeref] at h
          cases h
          simp [allNilBare, allNilBareList]
      | u64 x =>
          simp only [makeDeref] at h
          cases h
          simp [allNilBare, allNilBareList]
      | u32 x =>
          simp only [makeDeref] at h
          cases h
          simp [allNilBare, allNilBareList]
      | u16 x =>
          simp only [makeDeref] at h
          cases h
          simp [allNilBare, allNilBareList]
      | u8 x =>
          simp only [makeDeref] at h
          cases h
          simp [allNilBare, allNilBareList]
      | f32 q =>
          simp only [makeDeref] at h
          cases h
          simp [allNilBare, allNilBareList]
      | f64 q =>
          simp only [makeDeref] at h
          cases h
          simp [allNilBare, allNilBareList]
      | time t =>
          simp only [makeDeref] at h
          cases h
          simp [allNilBare, allNilBareList]
      | struct_ fields =>
          simp only [makeDeref] at h
          split at h
          · rename_i cs hcs
            cases h
            have hszf : sizeOf fields ≤ n := by
              have : sizeOf fields < sizeOf (GoVal.struct_ fields) := by
                simp_arith
              omega
            have hb := hfields fields cs hszf hcs
            simp [allNilBare, hb]
          · simp at h
          · simp at h
      | slice l => simp [makeDeref] at h
      | array l => simp [makeDeref] at h
      | gmap m => simp [makeDeref] at h
      | other s => simp [makeDeref] at h
    refine ⟨hderef, ?_, hfields⟩
    intro name a e hsz h
    cases a with
    | nilIface =>
        simp only [MakeElement] at h
        cases h
        rfl
    | ptr p =>
        cases p with
        | none =>
            simp only [MakeElement] at h
            cases h
            rfl
        | some q =>
            simp only [MakeElement] at h
            have hq : sizeOf q ≤ n := by
              have : sizeOf q < sizeOf (GoVal.ptr (some q)) := by simp_arith
              omega
            exact hderef name q e hq h
    | str s =>
        simp only [MakeElement] at h
        exact hderef name _ e hsz h
    | bool b =>
        simp only [MakeElement] at h
        exact hderef name _ e hsz h
    | i64 x =>
        simp only [MakeElement] at h
        exact hderef name _ e hsz h
    | i32 x =>
        simp only [MakeElement] at h
        exact hderef name _ e hsz h
    | i16 x =>
        simp only [MakeElement] at h
        exact hderef name _ e hsz h
    | i8 x =>
        simp only [MakeElement] at h
        exact hderef name _ e hsz h
    | u64 x =>
        simp only [MakeElement] at h
        exact hderef name _ e hsz h
    | u32 x =>
        simp only [MakeElement] at h
        exact hderef name _ e hsz h
    | u16 x =>
        simp only [MakeElement] at h
        exact hderef name _ e hsz h
    | u8 x =>
        simp only [MakeElement] at h
        exact hderef name _ e hsz h
    | f32 q =>
        simp only [MakeElement] at h
        exact hderef name _ e hsz h
    | f64 q =>
        simp only [MakeElement] at h
        exact hderef name _ e hsz h
    | time t =>
        simp only [MakeElement] at h
        exact hderef name _ e hsz h
    | struct_ fields =>
        simp only [MakeElement] at h
        exact hderef name _ e hsz h
    | slice l =>
        simp only [MakeElement] at h
        exact hderef name _ e hsz h
    | array l =>
        simp only [MakeElement] at h
        exact hderef name _ e hsz h
    | gmap m =>
        simp only [MakeElement] at h
        exact hderef name _ e hsz h
    | other s =>
        simp only [MakeElement] at h
        exact hderef name _ e hsz h

/-- C10: every nil-flagged Element anywhere in a tree produced by
`MakeElement` is bare — empty wire type tag, empty text, empty child
list. -/
theorem c10_nil_elements_bare (name : String) (a : GoVal) (e : Element)
    (h : MakeElement name a = .ok e) : allNilBare e = true :=
  (nilBare_aux (sizeOf a)).2.1 name a e le_rfl h

/-- Witness for C10: a struct with a string field and a nil pointer
field encodes to a record element whose nil child is bare. -/
theorem c10_witness :
    MakeElement "s" (.struct_ [⟨"A", "", true, .str "x"⟩,
        ⟨"P", "", true, .ptr none⟩]) =
      .ok (Element.mk "s" "SOAP-ENC:Struct" false ""
        [Element.mk "A" "xsd:string" false "x" [],
         Element.mk "P" "" true "" []]) ∧
    allNilBare (Element.mk "s" "SOAP-ENC:Struct" false ""
      [Element.mk "A" "xsd:string" false "x" [],
       Element.mk "P" "" true "" []]) = true := by
  have henc : MakeElement "s" (.struct_ [⟨"A", "", true, .str "x"⟩,
      ⟨"P", "", true, .ptr none⟩]) =
      .ok (Element.mk "s" "SOAP-ENC:Struct" false ""
        [Element.mk "A" "xsd:string" false "x" [],
         Element.mk "P" "" true "" []]) := by
    simp only [MakeElement, makeDeref, makeFields, GoField.exported,
      GoField.tag, GoField.name, GoField.val, cutComma]
    rfl
  exact ⟨henc, c10_nil_elements_bare "s" _ _ henc⟩

end Soap

